import Mathlib

/-!
# Verification of the Threat Detector Service (securityBreach.go)

A shallow embedding of the detection engine of the Security-Breach-Log-Analyzer
repository, together with theorems settling the specification claims about it.

Modelling conventions:

* Wall-clock time is modelled as a natural number of Unix seconds.  All calls to
  `time.Now()` made while one event is being processed observe the same second
  `now` (the claims about alert-id collisions concern exactly this situation).
* The Redis counter store is modelled as an association list from keys to
  counts plus an association list from keys to absolute expiry deadlines
  (Redis `EXPIRE key d` at time `now` sets the deadline `now + d`; a key whose
  deadline `d` satisfies `d ≤ now` is logically gone).  A single `available`
  flag models connectivity: when it is `false`, `INCR` fails (returns `none`),
  which is how `redis.Incr(...).Result()` returning an error is embedded.
  `EXPIRE` errors are ignored by the Go code, so `expire` on an unavailable
  store is a no-op.
* Go's `strings.ToLower` is embedded as a character-wise `Char.toLower` map
  over the string's characters; every pattern the detector searches for is
  ASCII, so the ASCII-only lowering of `Char.toLower` coincides with Go's
  behaviour on all characters that could ever contribute to a match.
* Go's `strings.Contains` is embedded as `isInfixL`, a boolean substring
  (contiguous infix) test, proved equivalent to Mathlib's `List.IsInfix`.
* `fmt.Sprintf` with `%s`/`%d` is embedded as string append / `toString`.
* Fallible store code returns `Option`; the evaluators themselves are total
  functions returning `Bool × Store` (match flag and updated store), exactly
  as the Go evaluators return `bool` and never propagate an error.
-/

namespace SecurityBreachAnalyzer

/-- `SecurityEvent` from securityBreach.go: a normalized security event. -/
structure SecurityEvent where
  timestamp : Nat
  source : String
  sourceIP : String
  eventType : String
  user : String
  action : String
  result : String
  rawLog : String
  metadata : List (String × String)
deriving DecidableEq, Repr

/-- `ThreatAlert` from securityBreach.go: a detected security threat.
`eventCount` and `rawEvents` are Go zero values (`0`, `nil`) unless set. -/
structure ThreatAlert where
  alertID : String
  timestamp : Nat
  severity : String
  threatType : String
  sourceIP : String
  details : String
  eventCount : Nat
  rawEvents : List String
deriving DecidableEq, Repr

/-- Boolean test: `p` is a prefix of `s` (character lists). -/
def isPrefixL : List Char → List Char → Bool
  | [], _ => true
  | _ :: _, [] => false
  | p :: ps, c :: cs => p == c && isPrefixL ps cs

/-- Boolean test: `pat` occurs contiguously inside `s` (character lists). -/
def isInfixL : List Char → List Char → Bool
  | pat, [] => isPrefixL pat []
  | pat, c :: cs => isPrefixL pat (c :: cs) || isInfixL pat cs

/-- Embedding of Go `strings.ToLower` (character-wise; see module comment). -/
def goToLower (s : String) : List Char := s.data.map Char.toLower

/-- Embedding of Go `strings.Contains hay pat`. -/
def goContains (hay : List Char) (pat : String) : Bool := isInfixL pat.data hay

/-- Association-list lookup used by the store model. -/
def lookupKey : List (String × Nat) → String → Option Nat
  | [], _ => none
  | (k2, v) :: rest, k => if k2 = k then some v else lookupKey rest k

/-- Association-list update (replace first binding or append). -/
def setKey : List (String × Nat) → String → Nat → List (String × Nat)
  | [], k, v => [(k, v)]
  | (k2, v2) :: rest, k, v =>
    if k2 = k then (k, v) :: rest else (k2, v2) :: setKey rest k v

/-- Association-list deletion (all bindings of the key). -/
def delKey : List (String × Nat) → String → List (String × Nat)
  | [], _ => []
  | (k2, v2) :: rest, k =>
    if k2 = k then delKey rest k else (k2, v2) :: delKey rest k

/-- The Redis counter store: counts, absolute expiry deadlines, connectivity. -/
structure Store where
  counts : List (String × Nat)
  deadlines : List (String × Nat)
  available : Bool
deriving DecidableEq, Repr

/-- A store with no keys and working connectivity. -/
def Store.fresh : Store := { counts := [], deadlines := [], available := true }

/-- Is key `k` logically expired at time `now` (its deadline has passed)? -/
def Store.expiredAt (st : Store) (now : Nat) (k : String) : Bool :=
  match lookupKey st.deadlines k with
  | none => false
  | some d => d ≤ now

/-- The live value of counter `k` at time `now` (0 if absent or expired). -/
def Store.get (st : Store) (now : Nat) (k : String) : Nat :=
  match lookupKey st.counts k with
  | none => 0
  | some c =>
    match lookupKey st.deadlines k with
    | none => c
    | some d => if now < d then c else 0

/-- The store after a successful `INCR k` at time `now`: the counter holds its
live value plus one; a logically expired key restarts from scratch, dropping
its stale deadline. -/
def Store.incremented (st : Store) (now : Nat) (k : String) : Store :=
  { st with
    counts := setKey st.counts k (st.get now k + 1)
    deadlines := if st.expiredAt now k then delKey st.deadlines k
                 else st.deadlines }

/-- Redis `INCR k` at time `now`: fails (returns `none`) when the store is
unreachable; otherwise returns the post-increment value with the updated
store. -/
def Store.incr (st : Store) (now : Nat) (k : String) : Option (Nat × Store) :=
  if st.available then
    some (st.get now k + 1, st.incremented now k)
  else
    none

/-- Redis `EXPIRE k dur` at time `now`: sets the deadline `now + dur` when the
key currently exists and is not logically expired; otherwise a no-op.  The Go
code ignores the result, so an unavailable store is also a no-op. -/
def Store.expire (st : Store) (now : Nat) (k : String) (dur : Nat) : Store :=
  if st.available then
    if (lookupKey st.counts k).isSome && !(st.expiredAt now k) then
      { st with deadlines := setKey st.deadlines k (now + dur) }
    else st
  else st

/-- `5 * time.Minute`, in seconds. -/
def fiveMinutes : Nat := 5 * 60

/-- The combined effect both counter rules apply on a qualifying event when the
store is reachable: increment the counter, then set its window to 5 minutes. -/
def Store.bumped (st : Store) (now : Nat) (k : String) : Store :=
  (st.incremented now k).expire now k fiveMinutes

/-- The Redis key `fmt.Sprintf("failed_auth:%s", event.SourceIP)`. -/
def bruteForceKey (e : SecurityEvent) : String := "failed_auth:" ++ e.sourceIP

/-- The Redis key `fmt.Sprintf("invalid_user:%s", event.SourceIP)`. -/
def suspiciousUserKey (e : SecurityEvent) : String := "invalid_user:" ++ e.sourceIP

/-- `isBruteForce` from securityBreach.go: only failed authentication events
qualify; on a qualifying event the per-IP counter is incremented, its window
set to five minutes, and the rule matches when the post-increment count is at
least 5.  A Redis error makes the rule return `false`. -/
def isBruteForce (e : SecurityEvent) (st : Store) (now : Nat) : Bool × Store :=
  if e.eventType ≠ "authentication" ∨ e.result ≠ "failed" then
    (false, st)
  else
    match st.incr now (bruteForceKey e) with
    | none => (false, st)
    | some (count, st1) =>
      (decide (5 ≤ count), st1.expire now (bruteForceKey e) fiveMinutes)

/-- The `sensitivePatterns` list from `isPrivilegeEscalation`. -/
def sensitivePatterns : List String :=
  ["/etc/shadow", "/etc/passwd", "/root", "chmod 777", "useradd"]

/-- `isPrivilegeEscalation` from securityBreach.go: the lower-cased action
must contain "sudo" or the lower-cased event type must contain "privilege",
and the lower-cased raw log must contain one of the sensitive patterns.
Stateless: it never touches the counter store. -/
def isPrivilegeEscalation (e : SecurityEvent) : Bool :=
  if goContains (goToLower e.action) "sudo" ||
     goContains (goToLower e.eventType) "privilege" then
    sensitivePatterns.any (fun pattern => goContains (goToLower e.rawLog) pattern)
  else
    false

/-- `isSuspiciousUser` from securityBreach.go: the lower-cased raw log must
contain "invalid user"; the per-IP counter is incremented, its window set to
five minutes, and the rule matches when the post-increment count is at least 3.
A Redis error makes the rule return `false`. -/
def isSuspiciousUser (e : SecurityEvent) (st : Store) (now : Nat) : Bool × Store :=
  if goContains (goToLower e.rawLog) "invalid user" then
    match st.incr now (suspiciousUserKey e) with
    | none => (false, st)
    | some (count, st1) =>
      (decide (3 ≤ count), st1.expire now (suspiciousUserKey e) fiveMinutes)
  else
    (false, st)

/-- The alert literal built in `detectThreats` when `isBruteForce` matches.
`AlertID` is `fmt.Sprintf("BF-%d", time.Now().Unix())`; `EventCount` and
`RawEvents` are left at their Go zero values. -/
def bruteForceAlert (e : SecurityEvent) (now : Nat) : ThreatAlert :=
  { alertID := "BF-" ++ toString now
    timestamp := now
    severity := "HIGH"
    threatType := "BRUTE_FORCE"
    sourceIP := e.sourceIP
    details := "Brute force attack detected from " ++ e.sourceIP
    eventCount := 0
    rawEvents := [] }

/-- The alert literal built in `detectThreats` when `isPrivilegeEscalation`
matches. -/
def privilegeEscalationAlert (e : SecurityEvent) (now : Nat) : ThreatAlert :=
  { alertID := "PE-" ++ toString now
    timestamp := now
    severity := "MEDIUM"
    threatType := "PRIVILEGE_ESCALATION"
    sourceIP := e.sourceIP
    details := "Privilege escalation attempt by " ++ e.user
    eventCount := 0
    rawEvents := [] }

/-- The alert literal built in `detectThreats` when `isSuspiciousUser`
matches. -/
def suspiciousUserAlert (e : SecurityEvent) (now : Nat) : ThreatAlert :=
  { alertID := "SU-" ++ toString now
    timestamp := now
    severity := "HIGH"
    threatType := "SUSPICIOUS_USER"
    sourceIP := e.sourceIP
    details := "Invalid user login attempts from " ++ e.sourceIP
    eventCount := 0
    rawEvents := [] }

/-- `detectThreats` from securityBreach.go: runs the three evaluators in order
(brute force, privilege escalation, suspicious user), collecting the alerts
sent to `alertChan` in order.  All `time.Now()` calls during the processing of
this event observe the Unix second `now`. -/
def detectThreats (e : SecurityEvent) (st : Store) (now : Nat) :
    List ThreatAlert × Store :=
  let bf := isBruteForce e st now
  let bfAlerts : List ThreatAlert :=
    if bf.1 then [bruteForceAlert e now] else []
  let peAlerts : List ThreatAlert :=
    if isPrivilegeEscalation e then [privilegeEscalationAlert e now] else []
  let su := isSuspiciousUser e bf.2 now
  let suAlerts : List ThreatAlert :=
    if su.1 then [suspiciousUserAlert e now] else []
  (bfAlerts ++ peAlerts ++ suAlerts, su.2)

/-- Process a list of (event, arrival second) pairs through `detectThreats`,
threading the store and concatenating the emitted alerts in order. -/
def runEvents : List (SecurityEvent × Nat) → Store → List ThreatAlert × Store
  | [], st => ([], st)
  | (e, t) :: rest, st =>
    let r := detectThreats e st t
    let rr := runEvents rest r.2
    (r.1 ++ rr.1, rr.2)

/-- Alert-classifying predicate: a brute-force alert. -/
def isBFAlert (a : ThreatAlert) : Bool := a.threatType == "BRUTE_FORCE"

/-- Alert-classifying predicate: a privilege-escalation alert. -/
def isPEAlert (a : ThreatAlert) : Bool := a.threatType == "PRIVILEGE_ESCALATION"

/-- Alert-classifying predicate: a suspicious-user alert. -/
def isSUAlert (a : ThreatAlert) : Bool := a.threatType == "SUSPICIOUS_USER"

/-- Iterate the brute-force evaluator alone over a list of arrival seconds
(the same event arriving repeatedly), threading the store. -/
def iterBruteForce (e : SecurityEvent) : List Nat → Store → Store
  | [], st => st
  | t :: ts, st => iterBruteForce e ts (isBruteForce e st t).2

/-- Iterate the suspicious-user evaluator alone over a list of arrival
seconds, threading the store. -/
def iterSuspiciousUser (e : SecurityEvent) : List Nat → Store → Store
  | [], st => st
  | t :: ts, st => iterSuspiciousUser e ts (isSuspiciousUser e st t).2

/-- `chainedTimes prev ts`: the arrival seconds `ts` are ordered and each
falls strictly inside the 5-minute window opened at the previous arrival. -/
def chainedTimes : Nat → List Nat → Bool
  | _, [] => true
  | prev, t :: ts =>
    (decide (prev ≤ t) && decide (t < prev + fiveMinutes)) && chainedTimes t ts

/-- A HIGH-severity brute-force alert. -/
def isHighBFAlert (a : ThreatAlert) : Bool :=
  (a.threatType == "BRUTE_FORCE") && (a.severity == "HIGH")

/-- A MEDIUM-severity privilege-escalation alert. -/
def isMediumPEAlert (a : ThreatAlert) : Bool :=
  (a.threatType == "PRIVILEGE_ESCALATION") && (a.severity == "MEDIUM")

/-- A HIGH-severity suspicious-user alert. -/
def isHighSUAlert (a : ThreatAlert) : Bool :=
  (a.threatType == "SUSPICIOUS_USER") && (a.severity == "HIGH")

/-- A failed-authentication event (qualifies for the brute-force rule only);
a concrete test fixture. -/
def authFailEvent : SecurityEvent :=
  { timestamp := 0, source := "sshd", sourceIP := "1.2.3.4",
    eventType := "authentication", user := "root", action := "login",
    result := "failed", rawLog := "Failed password for root",
    metadata := [] }

/-- An event whose raw log contains "invalid user" (suspicious-user rule). -/
def invalidUserEvent : SecurityEvent :=
  { timestamp := 0, source := "sshd", sourceIP := "5.6.7.8",
    eventType := "ssh", user := "admin", action := "login",
    result := "", rawLog := "Invalid user admin from 5.6.7.8",
    metadata := [] }

/-- A sudo action touching /etc/shadow (privilege-escalation rule). -/
def sudoShadowEvent : SecurityEvent :=
  { timestamp := 0, source := "auditd", sourceIP := "9.9.9.9",
    eventType := "command", user := "bob", action := "sudo cat",
    result := "success", rawLog := "bob : sudo cat /etc/shadow",
    metadata := [] }

/-- The raw log mentions sudo and /etc/shadow, but neither the action field
contains "sudo" nor the event-type field contains "privilege". -/
def rawLogOnlySudoEvent : SecurityEvent :=
  { timestamp := 0, source := "auditd", sourceIP := "9.9.9.9",
    eventType := "command", user := "bob", action := "exec",
    result := "success", rawLog := "bob ran sudo cat /etc/shadow",
    metadata := [] }

/-- A failed authentication whose raw log also mentions an invalid user, so
both counter-based rules qualify. -/
def bothRulesEvent : SecurityEvent :=
  { timestamp := 0, source := "sshd", sourceIP := "1.2.3.4",
    eventType := "authentication", user := "admin", action := "login",
    result := "failed", rawLog := "Failed password for invalid user admin",
    metadata := [] }

/-- A store whose brute-force counter for 1.2.3.4 is 4 and live until 1000. -/
def bfStoreAtFour : Store :=
  { counts := [("failed_auth:1.2.3.4", 4)]
    deadlines := [("failed_auth:1.2.3.4", 1000)]
    available := true }

/-- A store whose invalid-user counter for 5.6.7.8 is 2 and live until 1000. -/
def suStoreAtTwo : Store :=
  { counts := [("invalid_user:5.6.7.8", 2)]
    deadlines := [("invalid_user:5.6.7.8", 1000)]
    available := true }

/-- A store holding both counters of `bothRulesEvent` at their thresholds. -/
def mixedStore : Store :=
  { counts := [("failed_auth:1.2.3.4", 5), ("invalid_user:1.2.3.4", 3)]
    deadlines := [("failed_auth:1.2.3.4", 1000), ("invalid_user:1.2.3.4", 1000)]
    available := true }

/-- A store whose connectivity is down. -/
def downStore : Store := { counts := [], deadlines := [], available := false }

/-! ## Basic lemmas about the association-list store -/

theorem isPrefixL_iff (p s : List Char) : isPrefixL p s = true ↔ p <+: s := by
  induction p generalizing s with
  | nil => simp [isPrefixL]
  | cons a as ih =>
    cases s with
    | nil => simp [isPrefixL]
    | cons b bs =>
      constructor
      · intro h
        simp only [isPrefixL, Bool.and_eq_true, beq_iff_eq] at h
        obtain ⟨rfl, h2⟩ := h
        exact List.cons_prefix_cons.mpr ⟨rfl, (ih bs).mp h2⟩
      · intro h
        obtain ⟨rfl, h2⟩ := List.cons_prefix_cons.mp h
        simp [isPrefixL, (ih bs).mpr h2]

theorem isInfixL_iff (p s : List Char) : isInfixL p s = true ↔ p <:+: s := by
  induction s with
  | nil =>
    cases p with
    | nil => simp [isInfixL, isPrefixL]
    | cons a as => simp [isInfixL, isPrefixL]
  | cons b bs ih =>
    simp only [isInfixL, Bool.or_eq_true, isPrefixL_iff, ih]
    exact List.infix_cons_iff.symm

theorem goContains_iff (hay : List Char) (pat : String) :
    goContains hay pat = true ↔ pat.data <:+: hay := by
  simp [goContains, isInfixL_iff]

theorem lookupKey_setKey_self (l : List (String × Nat)) (k : String) (v : Nat) :
    lookupKey (setKey l k v) k = some v := by
  induction l with
  | nil => simp [setKey, lookupKey]
  | cons p rest ih =>
    by_cases h : p.1 = k
    · simp [setKey, h, lookupKey]
    · simp [setKey, h, lookupKey, ih]

theorem lookupKey_setKey_ne (l : List (String × Nat)) (k k2 : String) (v : Nat)
    (h : k2 ≠ k) : lookupKey (setKey l k v) k2 = lookupKey l k2 := by
  induction l with
  | nil => simp [setKey, lookupKey, Ne.symm h]
  | cons p rest ih =>
    by_cases hp : p.1 = k
    · simp [setKey, hp, lookupKey, Ne.symm h]
    · by_cases hp2 : p.1 = k2
      · simp [setKey, hp, lookupKey, hp2, h]
      · simp [setKey, hp, lookupKey, hp2, ih]

theorem lookupKey_delKey_self (l : List (String × Nat)) (k : String) :
    lookupKey (delKey l k) k = none := by
  induction l with
  | nil => simp [delKey, lookupKey]
  | cons p rest ih =>
    by_cases h : p.1 = k
    · simp [delKey, h, ih]
    · simp [delKey, h, lookupKey, ih]

theorem lookupKey_delKey_ne (l : List (String × Nat)) (k k2 : String)
    (h : k2 ≠ k) : lookupKey (delKey l k) k2 = lookupKey l k2 := by
  induction l with
  | nil => simp [delKey]
  | cons p rest ih =>
    by_cases hp : p.1 = k
    · simp [delKey, hp, lookupKey, Ne.symm h, ih]
    · simp [delKey, hp, lookupKey, ih]

theorem Store.get_of_lookups (st : Store) (m : Nat) (k : String) (c d : Nat)
    (hc : lookupKey st.counts k = some c)
    (hd : lookupKey st.deadlines k = some d) :
    st.get m k = if m < d then c else 0 := by
  simp [Store.get, hc, hd]

theorem Store.get_of_no_count (st : Store) (m : Nat) (k : String)
    (hc : lookupKey st.counts k = none) : st.get m k = 0 := by
  simp [Store.get, hc]

/-! ## The increment-then-expire combination -/

theorem incremented_available (st : Store) (now : Nat) (k : String) :
    (st.incremented now k).available = st.available := rfl

theorem incremented_counts (st : Store) (now : Nat) (k : String) :
    (st.incremented now k).counts = setKey st.counts k (st.get now k + 1) := rfl

theorem incremented_deadlines_ne (st : Store) (now : Nat) (k k2 : String)
    (h : k2 ≠ k) :
    lookupKey (st.incremented now k).deadlines k2 = lookupKey st.deadlines k2 := by
  simp only [Store.incremented]
  split
  · exact lookupKey_delKey_ne _ _ _ h
  · rfl

theorem incremented_not_expired (st : Store) (now : Nat) (k : String) :
    (st.incremented now k).expiredAt now k = false := by
  by_cases h : st.expiredAt now k
  · have hdl : (st.incremented now k).deadlines = delKey st.deadlines k := by
      simp [Store.incremented, h]
    simp [Store.expiredAt, hdl, lookupKey_delKey_self]
  · have hdl : (st.incremented now k).deadlines = st.deadlines := by
      simp [Store.incremented, h]
    have heq : (st.incremented now k).expiredAt now k = st.expiredAt now k := by
      simp [Store.expiredAt, hdl]
    rw [heq]
    simpa using h

theorem bumped_eq (st : Store) (now : Nat) (k : String)
    (ha : st.available = true) :
    st.bumped now k
      = { counts := setKey st.counts k (st.get now k + 1)
          deadlines := setKey (st.incremented now k).deadlines k (now + fiveMinutes)
          available := st.available } := by
  have havail : (st.incremented now k).available = true := by
    rw [incremented_available]; exact ha
  have hsome : (lookupKey (st.incremented now k).counts k).isSome = true := by
    rw [incremented_counts, lookupKey_setKey_self]; rfl
  have hne : (st.incremented now k).expiredAt now k = false :=
    incremented_not_expired st now k
  unfold Store.bumped Store.expire
  rw [if_pos havail, if_pos (by rw [hsome, hne]; rfl)]
  cases st with
  | mk c d a => rfl

theorem bumped_available (st : Store) (now : Nat) (k : String)
    (ha : st.available = true) : (st.bumped now k).available = true := by
  rw [bumped_eq st now k ha]; exact ha

theorem bumped_counts_self (st : Store) (now : Nat) (k : String)
    (ha : st.available = true) :
    lookupKey (st.bumped now k).counts k = some (st.get now k + 1) := by
  rw [bumped_eq st now k ha]
  exact lookupKey_setKey_self _ _ _

theorem bumped_counts_ne (st : Store) (now : Nat) (k k2 : String)
    (ha : st.available = true) (h : k2 ≠ k) :
    lookupKey (st.bumped now k).counts k2 = lookupKey st.counts k2 := by
  rw [bumped_eq st now k ha]
  exact lookupKey_setKey_ne _ _ _ _ h

theorem bumped_deadlines_self (st : Store) (now : Nat) (k : String)
    (ha : st.available = true) :
    lookupKey (st.bumped now k).deadlines k = some (now + fiveMinutes) := by
  rw [bumped_eq st now k ha]
  exact lookupKey_setKey_self _ _ _

theorem bumped_deadlines_ne (st : Store) (now : Nat) (k k2 : String)
    (ha : st.available = true) (h : k2 ≠ k) :
    lookupKey (st.bumped now k).deadlines k2 = lookupKey st.deadlines k2 := by
  rw [bumped_eq st now k ha]
  show lookupKey (setKey (st.incremented now k).deadlines k (now + fiveMinutes)) k2
      = lookupKey st.deadlines k2
  rw [lookupKey_setKey_ne _ _ _ _ h]
  exact incremented_deadlines_ne st now k k2 h

theorem bumped_get_self (st : Store) (now : Nat) (k : String) (m : Nat)
    (ha : st.available = true) :
    (st.bumped now k).get m k
      = if m < now + fiveMinutes then st.get now k + 1 else 0 :=
  Store.get_of_lookups _ _ _ _ _ (bumped_counts_self st now k ha)
    (bumped_deadlines_self st now k ha)

theorem bumped_get_ne (st : Store) (now : Nat) (k k2 : String) (m : Nat)
    (ha : st.available = true) (h : k2 ≠ k) :
    (st.bumped now k).get m k2 = st.get m k2 := by
  simp [Store.get, bumped_counts_ne st now k k2 ha h,
    bumped_deadlines_ne st now k k2 ha h]

/-! ## Evaluator characterizations -/

theorem isBruteForce_qual (e : SecurityEvent) (st : Store) (now : Nat)
    (ha : st.available = true)
    (ht : e.eventType = "authentication") (hr : e.result = "failed") :
    isBruteForce e st now
      = (decide (5 ≤ st.get now (bruteForceKey e) + 1),
         st.bumped now (bruteForceKey e)) := by
  have hcond : ¬(e.eventType ≠ "authentication" ∨ e.result ≠ "failed") := by
    push_neg
    exact ⟨ht, hr⟩
  unfold isBruteForce Store.incr
  rw [if_neg hcond, if_pos ha]
  rfl

theorem isBruteForce_fst_qual (e : SecurityEvent) (st : Store) (now : Nat)
    (ha : st.available = true)
    (ht : e.eventType = "authentication") (hr : e.result = "failed") :
    (isBruteForce e st now).1
      = decide (5 ≤ st.get now (bruteForceKey e) + 1) := by
  rw [isBruteForce_qual e st now ha ht hr]

theorem isBruteForce_snd_qual (e : SecurityEvent) (st : Store) (now : Nat)
    (ha : st.available = true)
    (ht : e.eventType = "authentication") (hr : e.result = "failed") :
    (isBruteForce e st now).2 = st.bumped now (bruteForceKey e) := by
  rw [isBruteForce_qual e st now ha ht hr]

theorem isBruteForce_nonqual (e : SecurityEvent) (st : Store) (now : Nat)
    (h : e.eventType ≠ "authentication" ∨ e.result ≠ "failed") :
    isBruteForce e st now = (false, st) := by
  unfold isBruteForce
  rw [if_pos h]

theorem isBruteForce_unavail (e : SecurityEvent) (st : Store) (now : Nat)
    (ha : st.available = false) :
    isBruteForce e st now = (false, st) := by
  by_cases h : e.eventType ≠ "authentication" ∨ e.result ≠ "failed"
  · exact isBruteForce_nonqual e st now h
  · unfold isBruteForce Store.incr
    rw [if_neg h, if_neg (by rw [ha]; exact Bool.false_ne_true)]

theorem isSuspiciousUser_qual (e : SecurityEvent) (st : Store) (now : Nat)
    (ha : st.available = true)
    (hq : goContains (goToLower e.rawLog) "invalid user" = true) :
    isSuspiciousUser e st now
      = (decide (3 ≤ st.get now (suspiciousUserKey e) + 1),
         st.bumped now (suspiciousUserKey e)) := by
  unfold isSuspiciousUser Store.incr
  rw [if_pos hq, if_pos ha]
  rfl

theorem isSuspiciousUser_fst_qual (e : SecurityEvent) (st : Store) (now : Nat)
    (ha : st.available = true)
    (hq : goContains (goToLower e.rawLog) "invalid user" = true) :
    (isSuspiciousUser e st now).1
      = decide (3 ≤ st.get now (suspiciousUserKey e) + 1) := by
  rw [isSuspiciousUser_qual e st now ha hq]

theorem isSuspiciousUser_snd_qual (e : SecurityEvent) (st : Store) (now : Nat)
    (ha : st.available = true)
    (hq : goContains (goToLower e.rawLog) "invalid user" = true) :
    (isSuspiciousUser e st now).2 = st.bumped now (suspiciousUserKey e) := by
  rw [isSuspiciousUser_qual e st now ha hq]

theorem isSuspiciousUser_nonqual (e : SecurityEvent) (st : Store) (now : Nat)
    (hq : goContains (goToLower e.rawLog) "invalid user" = false) :
    isSuspiciousUser e st now = (false, st) := by
  unfold isSuspiciousUser
  rw [if_neg (by rw [hq]; exact Bool.false_ne_true)]

theorem isSuspiciousUser_unavail (e : SecurityEvent) (st : Store) (now : Nat)
    (ha : st.available = false) :
    isSuspiciousUser e st now = (false, st) := by
  by_cases hq : goContains (goToLower e.rawLog) "invalid user"
  · unfold isSuspiciousUser Store.incr
    rw [if_pos hq, if_neg (by rw [ha]; exact Bool.false_ne_true)]
  · exact isSuspiciousUser_nonqual e st now (by simpa using hq)

theorem bruteForceKey_ne_suspiciousUserKey (e e2 : SecurityEvent) :
    bruteForceKey e ≠ suspiciousUserKey e2 := by
  intro h
  have hd := congrArg String.data h
  simp only [bruteForceKey, suspiciousUserKey, String.data_append] at hd
  simp at hd

/-! ## Decomposing `detectThreats` -/

theorem detectThreats_alerts (e : SecurityEvent) (st : Store) (now : Nat) :
    (detectThreats e st now).1
      = (if (isBruteForce e st now).1 then [bruteForceAlert e now] else [])
        ++ (if isPrivilegeEscalation e then [privilegeEscalationAlert e now] else [])
        ++ (if (isSuspiciousUser e (isBruteForce e st now).2 now).1
            then [suspiciousUserAlert e now] else []) := rfl

theorem detectThreats_store (e : SecurityEvent) (st : Store) (now : Nat) :
    (detectThreats e st now).2
      = (isSuspiciousUser e (isBruteForce e st now).2 now).2 := rfl

theorem countP_ite_singleton (b : Bool) (a : ThreatAlert) (p : ThreatAlert → Bool) :
    (if b then [a] else []).countP p = if b && p a then 1 else 0 := by
  cases b <;> cases hp : p a <;> simp [List.countP_cons, hp]

/-- The suspicious-user evaluation inside `detectThreats` is unaffected by the
brute-force evaluation that precedes it: the two rules use different keys. -/
theorem isSuspiciousUser_fst_after_bruteForce (e : SecurityEvent) (st : Store)
    (now : Nat) (ha : st.available = true) :
    (isSuspiciousUser e (isBruteForce e st now).2 now).1
      = (isSuspiciousUser e st now).1 := by
  by_cases h : e.eventType ≠ "authentication" ∨ e.result ≠ "failed"
  · rw [isBruteForce_nonqual e st now h]
  · push_neg at h
    rw [isBruteForce_qual e st now ha h.1 h.2]
    by_cases hq : goContains (goToLower e.rawLog) "invalid user"
    · have hb : (st.bumped now (bruteForceKey e)).available = true :=
        bumped_available st now (bruteForceKey e) ha
      rw [isSuspiciousUser_qual e _ now hb hq, isSuspiciousUser_qual e st now ha hq]
      have hgn : (st.bumped now (bruteForceKey e)).get now (suspiciousUserKey e)
          = st.get now (suspiciousUserKey e) :=
        bumped_get_ne st now (bruteForceKey e) (suspiciousUserKey e) now ha
          (Ne.symm (bruteForceKey_ne_suspiciousUserKey e e))
      rw [hgn]
    · have hq2 : goContains (goToLower e.rawLog) "invalid user" = false := by
        simpa using hq
      rw [isSuspiciousUser_nonqual e _ now hq2, isSuspiciousUser_nonqual e st now hq2]

/-! ## Counting alerts -/

theorem detectThreats_countP_eq (e : SecurityEvent) (st : Store) (now : Nat)
    (p : ThreatAlert → Bool) :
    (detectThreats e st now).1.countP p
      = (if (isBruteForce e st now).1 && p (bruteForceAlert e now) then 1 else 0)
        + (if isPrivilegeEscalation e && p (privilegeEscalationAlert e now)
           then 1 else 0)
        + (if (isSuspiciousUser e (isBruteForce e st now).2 now).1
             && p (suspiciousUserAlert e now) then 1 else 0) := by
  rw [detectThreats_alerts]
  simp only [List.countP_append, countP_ite_singleton]

theorem detectThreats_countHighBF (e : SecurityEvent) (st : Store) (now : Nat) :
    (detectThreats e st now).1.countP isHighBFAlert
      = if (isBruteForce e st now).1 then 1 else 0 := by
  rw [detectThreats_countP_eq]
  have h1 : isHighBFAlert (bruteForceAlert e now) = true := rfl
  have h2 : isHighBFAlert (privilegeEscalationAlert e now) = false := rfl
  have h3 : isHighBFAlert (suspiciousUserAlert e now) = false := rfl
  rw [h1, h2, h3]
  simp

theorem detectThreats_countBF (e : SecurityEvent) (st : Store) (now : Nat) :
    (detectThreats e st now).1.countP isBFAlert
      = if (isBruteForce e st now).1 then 1 else 0 := by
  rw [detectThreats_countP_eq]
  have h1 : isBFAlert (bruteForceAlert e now) = true := rfl
  have h2 : isBFAlert (privilegeEscalationAlert e now) = false := rfl
  have h3 : isBFAlert (suspiciousUserAlert e now) = false := rfl
  rw [h1, h2, h3]
  simp

theorem detectThreats_countMediumPE (e : SecurityEvent) (st : Store) (now : Nat) :
    (detectThreats e st now).1.countP isMediumPEAlert
      = if isPrivilegeEscalation e then 1 else 0 := by
  rw [detectThreats_countP_eq]
  have h1 : isMediumPEAlert (bruteForceAlert e now) = false := rfl
  have h2 : isMediumPEAlert (privilegeEscalationAlert e now) = true := rfl
  have h3 : isMediumPEAlert (suspiciousUserAlert e now) = false := rfl
  rw [h1, h2, h3]
  simp

theorem detectThreats_countHighSU (e : SecurityEvent) (st : Store) (now : Nat) :
    (detectThreats e st now).1.countP isHighSUAlert
      = if (isSuspiciousUser e (isBruteForce e st now).2 now).1 then 1 else 0 := by
  rw [detectThreats_countP_eq]
  have h1 : isHighSUAlert (bruteForceAlert e now) = false := rfl
  have h2 : isHighSUAlert (privilegeEscalationAlert e now) = false := rfl
  have h3 : isHighSUAlert (suspiciousUserAlert e now) = true := rfl
  rw [h1, h2, h3]
  simp

theorem detectThreats_countSU (e : SecurityEvent) (st : Store) (now : Nat) :
    (detectThreats e st now).1.countP isSUAlert
      = if (isSuspiciousUser e (isBruteForce e st now).2 now).1 then 1 else 0 := by
  rw [detectThreats_countP_eq]
  have h1 : isSUAlert (bruteForceAlert e now) = false := rfl
  have h2 : isSUAlert (privilegeEscalationAlert e now) = false := rfl
  have h3 : isSUAlert (suspiciousUserAlert e now) = true := rfl
  rw [h1, h2, h3]
  simp

theorem runEvents_cons (e : SecurityEvent) (t : Nat)
    (rest : List (SecurityEvent × Nat)) (st : Store) :
    runEvents ((e, t) :: rest) st
      = ((detectThreats e st t).1 ++ (runEvents rest (detectThreats e st t).2).1,
         (runEvents rest (detectThreats e st t).2).2) := rfl

theorem runEvents_nil (st : Store) : runEvents [] st = ([], st) := rfl

theorem mem_ite_singleton {a x : ThreatAlert} {b : Bool}
    (h : a ∈ (if b then [x] else [])) : a = x := by
  cases b <;> simp_all

/-- One `detectThreats` step on a suspicious-user-qualifying event, seen at the
`invalid_user` key: the availability flag survives, the counter becomes the old
live value plus one, the deadline becomes `now + fiveMinutes`, and exactly one
suspicious-user alert is emitted when the new value reaches the threshold. -/
theorem detectThreats_su_step (e : SecurityEvent) (st : Store) (now : Nat)
    (ha : st.available = true)
    (hq : goContains (goToLower e.rawLog) "invalid user" = true) :
    (detectThreats e st now).2.available = true ∧
    lookupKey (detectThreats e st now).2.counts (suspiciousUserKey e)
      = some (st.get now (suspiciousUserKey e) + 1) ∧
    lookupKey (detectThreats e st now).2.deadlines (suspiciousUserKey e)
      = some (now + fiveMinutes) ∧
    (detectThreats e st now).1.countP isSUAlert
      = (if 3 ≤ st.get now (suspiciousUserKey e) + 1 then 1 else 0) := by
  have hba : (isBruteForce e st now).2.available = true := by
    by_cases h : e.eventType ≠ "authentication" ∨ e.result ≠ "failed"
    · rw [isBruteForce_nonqual e st now h]; exact ha
    · push_neg at h
      rw [isBruteForce_qual e st now ha h.1 h.2]
      exact bumped_available st now _ ha
  have hbg : (isBruteForce e st now).2.get now (suspiciousUserKey e)
      = st.get now (suspiciousUserKey e) := by
    by_cases h : e.eventType ≠ "authentication" ∨ e.result ≠ "failed"
    · rw [isBruteForce_nonqual e st now h]
    · push_neg at h
      rw [isBruteForce_qual e st now ha h.1 h.2]
      exact bumped_get_ne st now _ _ now ha
        (Ne.symm (bruteForceKey_ne_suspiciousUserKey e e))
  have hsu : isSuspiciousUser e (isBruteForce e st now).2 now
      = (decide (3 ≤ st.get now (suspiciousUserKey e) + 1),
         ((isBruteForce e st now).2).bumped now (suspiciousUserKey e)) := by
    rw [isSuspiciousUser_qual e _ now hba hq, hbg]
  refine ⟨?_, ?_, ?_, ?_⟩
  · rw [detectThreats_store, hsu]
    exact bumped_available _ now _ hba
  · rw [detectThreats_store, hsu]
    show lookupKey (((isBruteForce e st now).2).bumped now
        (suspiciousUserKey e)).counts (suspiciousUserKey e)
      = some (st.get now (suspiciousUserKey e) + 1)
    rw [bumped_counts_self _ now _ hba, hbg]
  · rw [detectThreats_store, hsu]
    exact bumped_deadlines_self _ now _ hba
  · rw [detectThreats_countSU, hsu]
    simp

/-! ## Claims -/

/-- C1: the brute-force evaluator matches only when the event's eventType is
"authentication" and its result is "failed" (otherwise it returns no match and
leaves the store untouched); on a match it increments the counter keyed
`failed_auth:<sourceIP>`, (re)sets that counter's window to 5 minutes, and
reports a match — producing a HIGH-severity BRUTE_FORCE alert — exactly when
the post-increment count is at least 5. -/
theorem claim1_brute_force_evaluator (e : SecurityEvent) (st : Store) (now : Nat)
    (ha : st.available = true) :
    ((e.eventType ≠ "authentication" ∨ e.result ≠ "failed") →
      isBruteForce e st now = (false, st)) ∧
    (e.eventType = "authentication" → e.result = "failed" →
      (lookupKey (isBruteForce e st now).2.counts (bruteForceKey e)
          = some (st.get now (bruteForceKey e) + 1) ∧
       lookupKey (isBruteForce e st now).2.deadlines (bruteForceKey e)
          = some (now + fiveMinutes) ∧
       ((isBruteForce e st now).1 = true ↔ 5 ≤ st.get now (bruteForceKey e) + 1) ∧
       (detectThreats e st now).1.countP isHighBFAlert
          = if 5 ≤ st.get now (bruteForceKey e) + 1 then 1 else 0)) := by
  refine ⟨fun h => isBruteForce_nonqual e st now h, fun ht hr => ⟨?_, ?_, ?_, ?_⟩⟩
  · rw [isBruteForce_snd_qual e st now ha ht hr]
    exact bumped_counts_self st now _ ha
  · rw [isBruteForce_snd_qual e st now ha ht hr]
    exact bumped_deadlines_self st now _ ha
  · rw [isBruteForce_fst_qual e st now ha ht hr]
    simp
  · rw [detectThreats_countHighBF, isBruteForce_fst_qual e st now ha ht hr]
    simp

theorem claim1_witness :
    bfStoreAtFour.available = true ∧
    lookupKey (isBruteForce authFailEvent bfStoreAtFour 10).2.counts
        (bruteForceKey authFailEvent) = some 5 ∧
    lookupKey (isBruteForce authFailEvent bfStoreAtFour 10).2.deadlines
        (bruteForceKey authFailEvent) = some 310 ∧
    (isBruteForce authFailEvent bfStoreAtFour 10).1 = true ∧
    (detectThreats authFailEvent bfStoreAtFour 10).1.countP isHighBFAlert = 1 := by
  have h := (claim1_brute_force_evaluator authFailEvent bfStoreAtFour 10 rfl).2
    rfl rfl
  exact ⟨rfl, h.1, h.2.1, h.2.2.1.mpr (by decide), h.2.2.2.trans (by decide)⟩

/-- C5 (amended): every emitted ThreatAlert carries `event_count = 0`, whether
or not the alert is rate-based; the post-increment counter value is never
recorded in the alert. -/
theorem claim5_event_count_zero (e : SecurityEvent) (st : Store) (now : Nat)
    (a : ThreatAlert) (hmem : a ∈ (detectThreats e st now).1) :
    a.eventCount = 0 := by
  rw [detectThreats_alerts] at hmem
  rcases List.mem_append.mp hmem with h | h
  · rcases List.mem_append.mp h with h1 | h1
    · rw [mem_ite_singleton h1]; rfl
    · rw [mem_ite_singleton h1]; rfl
  · rw [mem_ite_singleton h]; rfl

/-- C5 counterexample: a brute-force alert produced while the post-increment
counter equals 5 (a rate-based detection) still carries `event_count = 0`,
refuting the claim that rate-based alerts carry the contributing count. -/
theorem claim5_counterexample :
    bfStoreAtFour.get 10 (bruteForceKey authFailEvent) + 1 = 5 ∧
    (detectThreats authFailEvent bfStoreAtFour 10).1.map
        (fun a => (a.threatType, a.eventCount)) = [("BRUTE_FORCE", 0)] := by
  decide

theorem claim5_witness :
    bruteForceAlert authFailEvent 10 ∈ (detectThreats authFailEvent bfStoreAtFour 10).1 ∧
    (bruteForceAlert authFailEvent 10).eventCount = 0 :=
  ⟨by decide,
   claim5_event_count_zero authFailEvent bfStoreAtFour 10 _ (by decide)⟩

/-- C6: when the counter store is unavailable, `INCR` fails, and each
counter-based evaluator abstains: it reports no match and leaves the store
unchanged, no brute-force or suspicious-user alert is emitted, and no error
escapes the evaluator (the evaluators are total functions into `Bool × Store`). -/
theorem claim6_store_unavailable (e : SecurityEvent) (st : Store) (now : Nat)
    (ha : st.available = false) :
    (∀ k, st.incr now k = none) ∧
    isBruteForce e st now = (false, st) ∧
    isSuspiciousUser e st now = (false, st) ∧
    (detectThreats e st now).1.countP isBFAlert = 0 ∧
    (detectThreats e st now).1.countP isSUAlert = 0 := by
  refine ⟨?_, isBruteForce_unavail e st now ha,
    isSuspiciousUser_unavail e st now ha, ?_, ?_⟩
  · intro k
    unfold Store.incr
    rw [if_neg (by rw [ha]; exact Bool.false_ne_true)]
  · rw [detectThreats_countBF, isBruteForce_unavail e st now ha]
    rfl
  · rw [detectThreats_countSU, isBruteForce_unavail e st now ha,
      isSuspiciousUser_unavail e st now ha]
    rfl

theorem claim6_witness :
    downStore.available = false ∧
    downStore.incr 7 "failed_auth:1.2.3.4" = none ∧
    isBruteForce authFailEvent downStore 7 = (false, downStore) ∧
    isSuspiciousUser invalidUserEvent downStore 7 = (false, downStore) ∧
    (detectThreats authFailEvent downStore 7).1.countP isBFAlert = 0 := by
  have h1 := claim6_store_unavailable authFailEvent downStore 7 rfl
  have h2 := claim6_store_unavailable invalidUserEvent downStore 7 rfl
  exact ⟨rfl, h1.1 _, h1.2.1, h2.2.2.1, h1.2.2.2.1⟩

/-- C7: for an event that is not a failed authentication, the brute-force
evaluator leaves the counter store completely unchanged (the store it returns
is the store it was given) and emits no brute-force alert. -/
theorem claim7_brute_force_frame (e : SecurityEvent) (st : Store) (now : Nat)
    (h : e.eventType ≠ "authentication" ∨ e.result ≠ "failed") :
    isBruteForce e st now = (false, st) ∧
    (detectThreats e st now).1.countP isBFAlert = 0 := by
  refine ⟨isBruteForce_nonqual e st now h, ?_⟩
  rw [detectThreats_countBF, isBruteForce_nonqual e st now h]
  rfl

theorem claim7_witness :
    invalidUserEvent.eventType ≠ "authentication" ∧
    isBruteForce invalidUserEvent suStoreAtTwo 10 = (false, suStoreAtTwo) ∧
    (detectThreats invalidUserEvent suStoreAtTwo 10).1.countP isBFAlert = 0 := by
  have h := claim7_brute_force_frame invalidUserEvent suStoreAtTwo 10
    (Or.inl (by decide))
  exact ⟨by decide, h.1, h.2⟩

/-- C9 (implicit): the rate-based rules alert on every qualifying event at or
above the threshold, not only when the threshold is first reached: whenever a
qualifying failed-authentication event brings the post-increment count to 5 or
more, a HIGH BRUTE_FORCE alert is emitted, and whenever a qualifying
invalid-user event brings the post-increment count to 3 or more, a HIGH
SUSPICIOUS_USER alert is emitted. -/
theorem claim9_alerts_at_and_above_threshold (e : SecurityEvent) (st : Store)
    (now : Nat) (ha : st.available = true) :
    ((e.eventType = "authentication" ∧ e.result = "failed" ∧
        5 ≤ st.get now (bruteForceKey e) + 1) →
      (detectThreats e st now).1.countP isHighBFAlert = 1) ∧
    ((goContains (goToLower e.rawLog) "invalid user" = true ∧
        3 ≤ st.get now (suspiciousUserKey e) + 1) →
      (detectThreats e st now).1.countP isHighSUAlert = 1) := by
  constructor
  · rintro ⟨ht, hr, hth⟩
    rw [detectThreats_countHighBF, isBruteForce_fst_qual e st now ha ht hr]
    simp [hth]
  · rintro ⟨hq, hth⟩
    rw [detectThreats_countHighSU,
      isSuspiciousUser_fst_after_bruteForce e st now ha,
      isSuspiciousUser_fst_qual e st now ha hq]
    simp [hth]

theorem claim9_witness :
    (mixedStore.get 50 (bruteForceKey bothRulesEvent) + 1 = 6 ∧
     mixedStore.get 50 (suspiciousUserKey bothRulesEvent) + 1 = 4) ∧
    (detectThreats bothRulesEvent mixedStore 50).1.countP isHighBFAlert = 1 ∧
    (detectThreats bothRulesEvent mixedStore 50).1.countP isHighSUAlert = 1 := by
  have h := claim9_alerts_at_and_above_threshold bothRulesEvent mixedStore 50 rfl
  exact ⟨by decide, h.1 ⟨rfl, rfl, by decide⟩, h.2 ⟨by decide, by decide⟩⟩

/-! ## Privilege escalation (C2) -/

theorem isPrivilegeEscalation_eq_and (e : SecurityEvent) :
    isPrivilegeEscalation e
      = ((goContains (goToLower e.action) "sudo" ||
          goContains (goToLower e.eventType) "privilege") &&
         sensitivePatterns.any (fun pattern => goContains (goToLower e.rawLog) pattern)) := by
  unfold isPrivilegeEscalation
  by_cases hc : (goContains (goToLower e.action) "sudo" ||
      goContains (goToLower e.eventType) "privilege") = true
  · rw [if_pos hc, hc, Bool.true_and]
  · have hcf : (goContains (goToLower e.action) "sudo" ||
        goContains (goToLower e.eventType) "privilege") = false := by
      simpa using hc
    rw [if_neg hc, hcf, Bool.false_and]

theorem runEvents_countMediumPE (evs : List (SecurityEvent × Nat)) (st : Store) :
    (runEvents evs st).1.countP isMediumPEAlert
      = evs.countP (fun et => isPrivilegeEscalation et.1) := by
  induction evs generalizing st with
  | nil => rfl
  | cons p rest ih =>
    obtain ⟨e, t⟩ := p
    rw [runEvents_cons]
    simp only [List.countP_append, List.countP_cons]
    rw [detectThreats_countMediumPE, ih]
    by_cases hpe : isPrivilegeEscalation e
    · simp [hpe]
      omega
    · simp [hpe]

theorem countP_pe_replicate (n : Nat) (e : SecurityEvent) (t : Nat) :
    (List.replicate n (e, t)).countP (fun et => isPrivilegeEscalation et.1)
      = if isPrivilegeEscalation e then n else 0 := by
  induction n with
  | zero => simp
  | succ m ih =>
    rw [List.replicate_succ, List.countP_cons, ih]
    by_cases hpe : isPrivilegeEscalation e
    · simp [hpe]
    · simp [hpe]

/-- C2 (amended): the privilege-escalation evaluator matches exactly when the
lower-cased action contains "sudo" or the lower-cased event type contains
"privilege", AND the lower-cased raw log contains one of the sensitive
patterns; it is stateless — for every store (of any contents or availability)
a qualifying event yields exactly one MEDIUM privilege-escalation alert, and
repeating the same qualifying event N times yields N such alerts; in
particular any event whose lower-cased ACTION FIELD contains "sudo" and whose
lower-cased raw log contains "/etc/shadow" yields exactly one MEDIUM
privilege-escalation alert.  (The original claim let a raw log containing
"sudo" qualify on its own; the code only inspects the action and event-type
fields for "sudo"/"privilege".) -/
theorem claim2_privilege_escalation (e : SecurityEvent) (st : Store)
    (now n : Nat) :
    (isPrivilegeEscalation e = true ↔
      ((goContains (goToLower e.action) "sudo" = true ∨
        goContains (goToLower e.eventType) "privilege" = true) ∧
       ∃ pattern ∈ sensitivePatterns,
         goContains (goToLower e.rawLog) pattern = true)) ∧
    (detectThreats e st now).1.countP isMediumPEAlert
      = (if isPrivilegeEscalation e then 1 else 0) ∧
    (runEvents (List.replicate n (e, now)) st).1.countP isMediumPEAlert
      = (if isPrivilegeEscalation e then n else 0) ∧
    (goContains (goToLower e.action) "sudo" = true →
      goContains (goToLower e.rawLog) "/etc/shadow" = true →
      (detectThreats e st now).1.countP isMediumPEAlert = 1) := by
  refine ⟨?_, detectThreats_countMediumPE e st now, ?_, ?_⟩
  · rw [isPrivilegeEscalation_eq_and]
    simp [List.any_eq_true]
  · rw [runEvents_countMediumPE, countP_pe_replicate]
  · intro hsudo hshadow
    have hpe : isPrivilegeEscalation e = true := by
      rw [isPrivilegeEscalation_eq_and, hsudo, Bool.true_or, Bool.true_and,
        List.any_eq_true]
      exact ⟨"/etc/shadow", by simp [sensitivePatterns], hshadow⟩
    rw [detectThreats_countMediumPE, hpe]
    rfl

/-- C2 counterexample: an event whose raw log contains both "sudo" and
"/etc/shadow" — but whose action and event-type fields contain neither "sudo"
nor "privilege" — produces no alert at all, refuting the claim that such a raw
log alone yields a MEDIUM privilege-escalation alert. -/
theorem claim2_counterexample :
    goContains (goToLower rawLogOnlySudoEvent.rawLog) "sudo" = true ∧
    goContains (goToLower rawLogOnlySudoEvent.rawLog) "/etc/shadow" = true ∧
    isPrivilegeEscalation rawLogOnlySudoEvent = false ∧
    (detectThreats rawLogOnlySudoEvent Store.fresh 0).1 = [] := by
  decide

theorem claim2_witness :
    goContains (goToLower sudoShadowEvent.action) "sudo" = true ∧
    goContains (goToLower sudoShadowEvent.rawLog) "/etc/shadow" = true ∧
    (detectThreats sudoShadowEvent downStore 0).1.countP isMediumPEAlert = 1 ∧
    (runEvents (List.replicate 3 (sudoShadowEvent, 0)) downStore).1.countP
        isMediumPEAlert = 3 := by
  have h := claim2_privilege_escalation sudoShadowEvent downStore 0 3
  exact ⟨by decide, by decide, h.2.2.2 (by decide) (by decide),
    h.2.2.1.trans (by decide)⟩

/-! ## Suspicious user (C3) -/

/-- C3: the suspicious-user evaluator matches exactly when the lower-cased raw
log contains "invalid user" (otherwise it returns no match and leaves the
store untouched); on a match it increments the counter keyed
`invalid_user:<sourceIP>` with a 5-minute window and reports a match —
producing a HIGH-severity SUSPICIOUS_USER alert — exactly when the
post-increment count is at least 3. -/
theorem claim3_suspicious_user_evaluator (e : SecurityEvent) (st : Store)
    (now : Nat) (ha : st.available = true) :
    (goContains (goToLower e.rawLog) "invalid user" = false →
      isSuspiciousUser e st now = (false, st)) ∧
    (goContains (goToLower e.rawLog) "invalid user" = true →
      (lookupKey (isSuspiciousUser e st now).2.counts (suspiciousUserKey e)
          = some (st.get now (suspiciousUserKey e) + 1) ∧
       lookupKey (isSuspiciousUser e st now).2.deadlines (suspiciousUserKey e)
          = some (now + fiveMinutes) ∧
       ((isSuspiciousUser e st now).1 = true ↔
          3 ≤ st.get now (suspiciousUserKey e) + 1) ∧
       (detectThreats e st now).1.countP isHighSUAlert
          = if 3 ≤ st.get now (suspiciousUserKey e) + 1 then 1 else 0)) := by
  refine ⟨fun hq => isSuspiciousUser_nonqual e st now hq,
    fun hq => ⟨?_, ?_, ?_, ?_⟩⟩
  · rw [isSuspiciousUser_snd_qual e st now ha hq]
    exact bumped_counts_self st now _ ha
  · rw [isSuspiciousUser_snd_qual e st now ha hq]
    exact bumped_deadlines_self st now _ ha
  · rw [isSuspiciousUser_fst_qual e st now ha hq]
    simp
  · rw [detectThreats_countHighSU,
      isSuspiciousUser_fst_after_bruteForce e st now ha,
      isSuspiciousUser_fst_qual e st now ha hq]
    simp

theorem claim3_witness :
    suStoreAtTwo.available = true ∧
    lookupKey (isSuspiciousUser invalidUserEvent suStoreAtTwo 10).2.counts
        (suspiciousUserKey invalidUserEvent) = some 3 ∧
    lookupKey (isSuspiciousUser invalidUserEvent suStoreAtTwo 10).2.deadlines
        (suspiciousUserKey invalidUserEvent) = some 310 ∧
    (isSuspiciousUser invalidUserEvent suStoreAtTwo 10).1 = true ∧
    (detectThreats invalidUserEvent suStoreAtTwo 10).1.countP isHighSUAlert = 1 := by
  have h := (claim3_suspicious_user_evaluator invalidUserEvent suStoreAtTwo 10
    rfl).2 (by decide)
  exact ⟨rfl, h.1, h.2.1, h.2.2.1.mpr (by decide), h.2.2.2.trans (by decide)⟩

/-! ## Alert identifiers (C4) -/

/-- C4 fails on the code ("code bug"): alert identifiers are built from the
wall-clock Unix second alone (`fmt.Sprintf("BF-%d", time.Now().Unix())`), so
two distinct brute-force alert emissions within the same second carry the
identical alert id "BF-100" — the identifiers of distinct emissions are not
unique. -/
theorem claim4_alert_id_collision :
    (runEvents [(authFailEvent, 100), (authFailEvent, 100)] bfStoreAtFour).1.map
        (fun a => (a.threatType, a.alertID))
      = [("BRUTE_FORCE", "BF-100"), ("BRUTE_FORCE", "BF-100")] := by
  decide

/-! ## Window expiry (C8) -/

/-- C8: starting from a store with no invalid-user counter for the source IP,
feeding 2 qualifying invalid-user events, letting the 5-minute window of the
second one expire (`t2 + fiveMinutes ≤ t3`, at which point the counter is
implicitly reset to zero), then feeding 2 more qualifying events, produces no
suspicious-user alert on any of the four events: the post-increment count
never reaches the threshold of 3 within one window. -/
theorem claim8_window_expiry (e : SecurityEvent) (st : Store)
    (t1 t2 t3 t4 : Nat)
    (ha : st.available = true)
    (hq : goContains (goToLower e.rawLog) "invalid user" = true)
    (hfresh : lookupKey st.counts (suspiciousUserKey e) = none)
    (hexp : t2 + fiveMinutes ≤ t3) :
    (runEvents [(e, t1), (e, t2), (e, t3), (e, t4)] st).1.countP isSUAlert
      = 0 := by
  obtain ⟨ha1, hc1, hd1, hn1⟩ := detectThreats_su_step e st t1 ha hq
  obtain ⟨ha2, hc2, hd2, hn2⟩ :=
    detectThreats_su_step e (detectThreats e st t1).2 t2 ha1 hq
  obtain ⟨ha3, hc3, hd3, hn3⟩ :=
    detectThreats_su_step e
      (detectThreats e (detectThreats e st t1).2 t2).2 t3 ha2 hq
  obtain ⟨ha4, hc4, hd4, hn4⟩ :=
    detectThreats_su_step e
      (detectThreats e (detectThreats e (detectThreats e st t1).2 t2).2 t3).2
      t4 ha3 hq
  have hg1 : st.get t1 (suspiciousUserKey e) = 0 :=
    Store.get_of_no_count st t1 _ hfresh
  have hg2 : (detectThreats e st t1).2.get t2 (suspiciousUserKey e) ≤ 1 := by
    rw [Store.get_of_lookups _ t2 _ _ _ hc1 hd1, hg1]
    split <;> omega
  have hg3 : (detectThreats e (detectThreats e st t1).2 t2).2.get t3
      (suspiciousUserKey e) = 0 := by
    rw [Store.get_of_lookups _ t3 _ _ _ hc2 hd2]
    exact if_neg (by omega)
  have hg4 : (detectThreats e (detectThreats e (detectThreats e st t1).2 t2).2
      t3).2.get t4 (suspiciousUserKey e) ≤ 1 := by
    rw [Store.get_of_lookups _ t4 _ _ _ hc3 hd3, hg3]
    split <;> omega
  have z1 : (if 3 ≤ st.get t1 (suspiciousUserKey e) + 1 then 1 else 0) = 0 := by
    rw [if_neg (by omega)]
  have z2 : (if 3 ≤ (detectThreats e st t1).2.get t2 (suspiciousUserKey e) + 1
      then 1 else 0) = 0 := by
    rw [if_neg (by omega)]
  have z3 : (if 3 ≤ (detectThreats e (detectThreats e st t1).2 t2).2.get t3
      (suspiciousUserKey e) + 1 then 1 else 0) = 0 := by
    rw [if_neg (by omega)]
  have z4 : (if 3 ≤ (detectThreats e (detectThreats e (detectThreats e st t1).2
      t2).2 t3).2.get t4 (suspiciousUserKey e) + 1 then 1 else 0) = 0 := by
    rw [if_neg (by omega)]
  simp only [runEvents_cons, runEvents_nil, List.countP_append, List.countP_nil]
  rw [hn1, hn2, hn3, hn4, z1, z2, z3, z4]

/-! ## TTL refresh and unbounded growth (C10) -/

theorem iterBruteForce_growth (e : SecurityEvent)
    (ht : e.eventType = "authentication") (hr : e.result = "failed") :
    ∀ (ts : List Nat) (prev : Nat) (st : Store) (c : Nat),
      st.available = true →
      chainedTimes prev ts = true →
      lookupKey st.counts (bruteForceKey e) = some c →
      lookupKey st.deadlines (bruteForceKey e) = some (prev + fiveMinutes) →
      lookupKey (iterBruteForce e ts st).counts (bruteForceKey e)
        = some (c + ts.length) := by
  intro ts
  induction ts with
  | nil =>
    intro prev st c _ _ hc _
    simpa [iterBruteForce] using hc
  | cons t ts ih =>
    intro prev st c ha hch hc hd
    simp only [chainedTimes, Bool.and_eq_true, decide_eq_true_eq] at hch
    obtain ⟨⟨hle, hlt⟩, hch2⟩ := hch
    have hget : st.get t (bruteForceKey e) = c := by
      rw [Store.get_of_lookups _ t _ _ _ hc hd, if_pos (by omega)]
    have hstep : iterBruteForce e (t :: ts) st
        = iterBruteForce e ts (st.bumped t (bruteForceKey e)) := by
      show iterBruteForce e ts (isBruteForce e st t).2
        = iterBruteForce e ts (st.bumped t (bruteForceKey e))
      rw [isBruteForce_snd_qual e st t ha ht hr]
    rw [hstep]
    have hc2 : lookupKey (st.bumped t (bruteForceKey e)).counts (bruteForceKey e)
        = some (c + 1) := by
      rw [bumped_counts_self st t _ ha, hget]
    have hd2 : lookupKey (st.bumped t (bruteForceKey e)).deadlines (bruteForceKey e)
        = some (t + fiveMinutes) := bumped_deadlines_self st t _ ha
    have ha2 : (st.bumped t (bruteForceKey e)).available = true :=
      bumped_available st t _ ha
    rw [ih t (st.bumped t (bruteForceKey e)) (c + 1) ha2 hch2 hc2 hd2]
    have : c + 1 + ts.length = c + (t :: ts).length := by
      simp [List.length_cons]
      omega
    rw [this]

theorem iterSuspiciousUser_growth (e : SecurityEvent)
    (hq : goContains (goToLower e.rawLog) "invalid user" = true) :
    ∀ (ts : List Nat) (prev : Nat) (st : Store) (c : Nat),
      st.available = true →
      chainedTimes prev ts = true →
      lookupKey st.counts (suspiciousUserKey e) = some c →
      lookupKey st.deadlines (suspiciousUserKey e) = some (prev + fiveMinutes) →
      lookupKey (iterSuspiciousUser e ts st).counts (suspiciousUserKey e)
        = some (c + ts.length) := by
  intro ts
  induction ts with
  | nil =>
    intro prev st c _ _ hc _
    simpa [iterSuspiciousUser] using hc
  | cons t ts ih =>
    intro prev st c ha hch hc hd
    simp only [chainedTimes, Bool.and_eq_true, decide_eq_true_eq] at hch
    obtain ⟨⟨hle, hlt⟩, hch2⟩ := hch
    have hget : st.get t (suspiciousUserKey e) = c := by
      rw [Store.get_of_lookups _ t _ _ _ hc hd, if_pos (by omega)]
    have hstep : iterSuspiciousUser e (t :: ts) st
        = iterSuspiciousUser e ts (st.bumped t (suspiciousUserKey e)) := by
      show iterSuspiciousUser e ts (isSuspiciousUser e st t).2
        = iterSuspiciousUser e ts (st.bumped t (suspiciousUserKey e))
      rw [isSuspiciousUser_snd_qual e st t ha hq]
    rw [hstep]
    have hc2 : lookupKey (st.bumped t (suspiciousUserKey e)).counts
        (suspiciousUserKey e) = some (c + 1) := by
      rw [bumped_counts_self st t _ ha, hget]
    have hd2 : lookupKey (st.bumped t (suspiciousUserKey e)).deadlines
        (suspiciousUserKey e) = some (t + fiveMinutes) :=
      bumped_deadlines_self st t _ ha
    have ha2 : (st.bumped t (suspiciousUserKey e)).available = true :=
      bumped_available st t _ ha
    rw [ih t (st.bumped t (suspiciousUserKey e)) (c + 1) ha2 hch2 hc2 hd2]
    have : c + 1 + ts.length = c + (t :: ts).length := by
      simp [List.length_cons]
      omega
    rw [this]

/-- C10 (implicit): both counter-based evaluators refresh the counter's
time-to-live to 5 minutes after every increment — not only on creation, the
new deadline is `now + fiveMinutes` whatever the previous deadline was — so
the window extends from the most recent qualifying event, and a sequence of
qualifying events from one source IP spaced less than 5 minutes apart keeps
the counter alive and growing without bound: after the first event and `ts`
further chained arrivals the counter holds exactly the initial live value
plus `1 + ts.length`, never having been reset. -/
theorem claim10_ttl_refresh (e : SecurityEvent) (st : Store) (now : Nat)
    (ts : List Nat) (ha : st.available = true) :
    ((e.eventType = "authentication" ∧ e.result = "failed") →
      lookupKey (isBruteForce e st now).2.deadlines (bruteForceKey e)
        = some (now + fiveMinutes)) ∧
    (goContains (goToLower e.rawLog) "invalid user" = true →
      lookupKey (isSuspiciousUser e st now).2.deadlines (suspiciousUserKey e)
        = some (now + fiveMinutes)) ∧
    ((e.eventType = "authentication" ∧ e.result = "failed") →
      chainedTimes now ts = true →
      lookupKey (iterBruteForce e ts (isBruteForce e st now).2).counts
          (bruteForceKey e)
        = some (st.get now (bruteForceKey e) + 1 + ts.length)) ∧
    (goContains (goToLower e.rawLog) "invalid user" = true →
      chainedTimes now ts = true →
      lookupKey (iterSuspiciousUser e ts (isSuspiciousUser e st now).2).counts
          (suspiciousUserKey e)
        = some (st.get now (suspiciousUserKey e) + 1 + ts.length)) := by
  refine ⟨?_, ?_, ?_, ?_⟩
  · rintro ⟨ht, hr⟩
    rw [isBruteForce_snd_qual e st now ha ht hr]
    exact bumped_deadlines_self st now _ ha
  · intro hq
    rw [isSuspiciousUser_snd_qual e st now ha hq]
    exact bumped_deadlines_self st now _ ha
  · rintro ⟨ht, hr⟩ hch
    rw [isBruteForce_snd_qual e st now ha ht hr]
    exact iterBruteForce_growth e ht hr ts now _ _
      (bumped_available st now _ ha) hch
      (bumped_counts_self st now _ ha) (bumped_deadlines_self st now _ ha)
  · intro hq hch
    rw [isSuspiciousUser_snd_qual e st now ha hq]
    exact iterSuspiciousUser_growth e hq ts now _ _
      (bumped_available st now _ ha) hch
      (bumped_counts_self st now _ ha) (bumped_deadlines_self st now _ ha)

theorem claim10_witness :
    (Store.fresh.available = true ∧ chainedTimes 0 [100, 250] = true) ∧
    lookupKey (iterBruteForce bothRulesEvent [100, 250]
        (isBruteForce bothRulesEvent Store.fresh 0).2).counts
      (bruteForceKey bothRulesEvent) = some 3 ∧
    lookupKey (iterSuspiciousUser bothRulesEvent [100, 250]
        (isSuspiciousUser bothRulesEvent Store.fresh 0).2).counts
      (suspiciousUserKey bothRulesEvent) = some 3 := by
  have h := claim10_ttl_refresh bothRulesEvent Store.fresh 0 [100, 250] rfl
  exact ⟨⟨rfl, by decide⟩, h.2.2.1 ⟨rfl, rfl⟩ (by decide),
    h.2.2.2 (by decide) (by decide)⟩

theorem claim8_witness :
    (Store.fresh.available = true ∧
     goContains (goToLower invalidUserEvent.rawLog) "invalid user" = true ∧
     lookupKey Store.fresh.counts (suspiciousUserKey invalidUserEvent) = none ∧
     60 + fiveMinutes ≤ 360) ∧
    (runEvents [(invalidUserEvent, 0), (invalidUserEvent, 60),
        (invalidUserEvent, 360), (invalidUserEvent, 420)] Store.fresh).1.countP
      isSUAlert = 0 :=
  ⟨⟨rfl, by decide, rfl, by decide⟩,
   claim8_window_expiry invalidUserEvent Store.fresh 0 60 360 420 rfl
     (by decide) rfl (by decide)⟩

end SecurityBreachAnalyzer
